import Mathlib

/-!
Verification development for the `med-predict-nexus` cancer-risk service
(`src/app.py`, `src/config.py`).

The embedding below models:
  * JSON values (`JsonVal`) as produced by `request.get_json()` / `json.loads`,
    together with an executable serializer `json_dumps` mirroring Python's
    `json.dumps` (default separators `", "` and `": "`, escaping of the quote
    and backslash characters) and an executable parser `json_loads` mirroring
    `json.loads` on the fragment the service produces.  JSON numbers are
    modelled as integers; float formatting, `\uXXXX` escapes and the
    `ensure_ascii` transcription of non-ASCII characters are outside the model.
  * The `predictions` table (`Db`, `PredRow`) and the SQL statements the
    service issues (`SqlStmt`, `applySql`).
  * The four Flask handlers `predict`, `get_patients`, `train_model` and
    `index` as pure state-passing functions; the external collaborators
    (`predict_cancer_risk`, the MySQL connection, `train_models`) are passed
    in as explicit arguments whose success or failure is part of the input.
  * Python exceptions as `Except PyErr` values: every `try`/`except` block of
    the source corresponds to a `match` on an `Except` result.
-/

namespace MedPredict

/-- A Python exception, identified by its detail message. -/
abbrev PyErr := String

/-- JSON values, as produced by `request.get_json()` / `json.loads` and
consumed by `json.dumps` and `jsonify`.  Numbers are modelled as integers. -/
inductive JsonVal where
  | null : JsonVal
  | bool (b : Bool) : JsonVal
  | num (n : Int) : JsonVal
  | str (s : String) : JsonVal
  | arr (elems : List JsonVal) : JsonVal
  | obj (fields : List (String × JsonVal)) : JsonVal

/-- Structural induction for `JsonVal` with membership hypotheses for the
nested lists. -/
theorem JsonVal.inductionOn {motive : JsonVal → Prop}
    (hnull : motive .null)
    (hbool : ∀ b, motive (.bool b))
    (hnum : ∀ n, motive (.num n))
    (hstr : ∀ s, motive (.str s))
    (harr : ∀ xs, (∀ x ∈ xs, motive x) → motive (.arr xs))
    (hobj : ∀ kvs, (∀ kv ∈ kvs, motive kv.2) → motive (.obj kvs)) :
    ∀ v, motive v
  | .null => hnull
  | .bool b => hbool b
  | .num n => hnum n
  | .str s => hstr s
  | .arr xs => harr xs (fun x hx =>
      have : sizeOf x < sizeOf (JsonVal.arr xs) := by
        have := List.sizeOf_lt_of_mem hx
        simp only [JsonVal.arr.sizeOf_spec]
        omega
      JsonVal.inductionOn hnull hbool hnum hstr harr hobj x)
  | .obj kvs => hobj kvs (fun kv hkv =>
      have h1 : sizeOf kv < sizeOf kvs := List.sizeOf_lt_of_mem hkv
      have h2 : sizeOf kv.2 < sizeOf kv := by
        obtain ⟨a, b⟩ := kv
        simp only [Prod.mk.sizeOf_spec]
        omega
      have : sizeOf kv.2 < 1 + sizeOf kvs := by omega
      JsonVal.inductionOn hnull hbool hnum hstr harr hobj kv.2)
termination_by v => sizeOf v

/-! ### Character-level helpers for the JSON serializer and parser -/

/-- Decimal digit test (`'0'` through `'9'`). -/
def isDigitChar (c : Char) : Bool := 48 ≤ c.toNat && c.toNat ≤ 57

/-- Numeric value of a decimal digit character. -/
def digitVal (c : Char) : Nat := c.toNat - 48

/-- JSON whitespace characters (space, tab, line feed, carriage return, by
code point). -/
def isWsChar (c : Char) : Bool :=
  c.toNat = 32 || c.toNat = 9 || c.toNat = 10 || c.toNat = 13

/-- Drop leading JSON whitespace. -/
def skipWs : List Char → List Char
  | [] => []
  | c :: cs => if isWsChar c then skipWs cs else c :: cs

/-- Decimal digits of a natural number, most significant first
(Python's `repr` for a nonnegative `int`). -/
def natChars (n : Nat) : List Char :=
  if n < 10 then [Char.ofNat (48 + n)]
  else natChars (n / 10) ++ [Char.ofNat (48 + n % 10)]
termination_by n
decreasing_by
  exact Nat.div_lt_self (by omega) (by omega)

/-- Decimal rendering of an integer (Python's `repr` for an `int`). -/
def intChars (i : Int) : List Char :=
  if i < 0 then '-' :: natChars i.natAbs else natChars i.toNat

/-- Consume a maximal run of decimal digits, left to right, accumulating the
value. -/
def readDigits : List Char → Nat → Nat × List Char
  | [], acc => (acc, [])
  | c :: cs, acc =>
    if isDigitChar c then readDigits cs (acc * 10 + digitVal c) else (acc, c :: cs)

/-- Parse a nonnegative decimal literal (at least one digit). -/
def parseNum : List Char → Option (Nat × List Char)
  | [] => none
  | c :: cs => if isDigitChar c then some (readDigits (c :: cs) 0) else none

/-- String escaping as performed by `json.dumps` on the quote and backslash
characters. -/
def escapeChars : List Char → List Char
  | [] => []
  | c :: cs =>
    if c = '"' || c = '\\' then '\\' :: c :: escapeChars cs
    else c :: escapeChars cs

/-- Meaning of a backslash escape inside a JSON string literal: the quote,
backslash and slash stand for themselves; the letters n, t, r, b, f stand for
the usual control characters. -/
def unescapeChar (e : Char) : Option Char :=
  if e = '"' ∨ e = '\\' ∨ e = '/' then some e
  else if e = 'n' then some '\n'
  else if e = 't' then some '\t'
  else if e = 'r' then some '\r'
  else if e = 'b' then some (Char.ofNat 8)
  else if e = 'f' then some (Char.ofNat 12)
  else none

/-- Parse the body of a JSON string literal (the opening quote has been
consumed); returns the decoded characters and the input after the closing
quote. -/
def parseStrBody : List Char → Option (List Char × List Char)
  | [] => none
  | c :: cs =>
    if c = '"' then some ([], cs)
    else if c = '\\' then
      match cs with
      | [] => none
      | e :: cs2 =>
        match unescapeChar e with
        | some d => (parseStrBody cs2).map (fun p => (d :: p.1, p.2))
        | none => none
    else (parseStrBody cs).map (fun p => (c :: p.1, p.2))

/-! ### The serializer, `json.dumps` with default options -/

/-- The spelling of the `null` keyword. -/
def nullChars : List Char := ['n', 'u', 'l', 'l']

/-- The spelling of the `true` keyword. -/
def trueChars : List Char := ['t', 'r', 'u', 'e']

/-- The spelling of the `false` keyword. -/
def falseChars : List Char := ['f', 'a', 'l', 's', 'e']

mutual

/-- `json.dumps` with its default separators. -/
def json_dumps : JsonVal → List Char
  | .null => nullChars
  | .bool true => trueChars
  | .bool false => falseChars
  | .num i => intChars i
  | .str s => '"' :: (escapeChars s.data ++ ['"'])
  | .arr [] => ['[', ']']
  | .arr (x :: xs) => '[' :: (json_dumps x ++ dumpsArrTail xs ++ [']'])
  | .obj [] => ['{', '}']
  | .obj (kv :: kvs) => '{' :: (dumpsEntry kv ++ dumpsObjTail kvs ++ ['}'])

/-- One `"key": value` entry of a serialized object. -/
def dumpsEntry : String × JsonVal → List Char
  | (k, v) => '"' :: (escapeChars k.data ++ '"' :: ':' :: ' ' :: json_dumps v)

/-- Remaining array elements, each preceded by the `", "` separator. -/
def dumpsArrTail : List JsonVal → List Char
  | [] => []
  | x :: xs => ',' :: ' ' :: (json_dumps x ++ dumpsArrTail xs)

/-- Remaining object entries, each preceded by the `", "` separator. -/
def dumpsObjTail : List (String × JsonVal) → List Char
  | [] => []
  | kv :: kvs => ',' :: ' ' :: (dumpsEntry kv ++ dumpsObjTail kvs)

end

/-! ### The parser, `json.loads` on the fragment the service produces -/

mutual

/-- Parse one JSON value after skipping leading whitespace; `fuel` bounds the
recursion depth. -/
def parseVal : Nat → List Char → Option (JsonVal × List Char)
  | 0, _ => none
  | fuel + 1, s =>
    match skipWs s with
    | [] => none
    | c :: r =>
      if c = 'n' then
        match r with
        | 'u' :: 'l' :: 'l' :: r2 => some (.null, r2)
        | _ => none
      else if c = 't' then
        match r with
        | 'r' :: 'u' :: 'e' :: r2 => some (.bool true, r2)
        | _ => none
      else if c = 'f' then
        match r with
        | 'a' :: 'l' :: 's' :: 'e' :: r2 => some (.bool false, r2)
        | _ => none
      else if c = '"' then
        (parseStrBody r).map (fun p => (.str (String.mk p.1), p.2))
      else if c = '[' then
        parseArrBody fuel r
      else if c = '{' then
        parseObjBody fuel r
      else if c = '-' then
        (parseNum r).map (fun p => (.num (-(p.1 : Int)), p.2))
      else if isDigitChar c then
        (parseNum (c :: r)).map (fun p => (.num (p.1 : Int), p.2))
      else none

/-- Parse the contents of an array after the opening bracket. -/
def parseArrBody : Nat → List Char → Option (JsonVal × List Char)
  | fuel, r =>
    match skipWs r with
    | [] => none
    | c :: r2 =>
      if c = ']' then some (.arr [], r2)
      else (parseArrItems fuel (c :: r2)).map (fun p => (.arr p.1, p.2))

/-- Parse the contents of an object after the opening brace. -/
def parseObjBody : Nat → List Char → Option (JsonVal × List Char)
  | fuel, r =>
    match skipWs r with
    | [] => none
    | c :: r2 =>
      if c = '}' then some (.obj [], r2)
      else (parseObjItems fuel (c :: r2)).map (fun p => (.obj p.1, p.2))

/-- Parse one or more comma-separated array elements and the closing
bracket. -/
def parseArrItems : Nat → List Char → Option (List JsonVal × List Char)
  | 0, _ => none
  | fuel + 1, s =>
    (parseVal fuel s).bind (fun p =>
      match skipWs p.2 with
      | ',' :: r2 => (parseArrItems fuel r2).map (fun q => (p.1 :: q.1, q.2))
      | ']' :: r2 => some ([p.1], r2)
      | _ => none)

/-- Parse one or more comma-separated `"key": value` entries and the closing
brace. -/
def parseObjItems : Nat → List Char → Option (List (String × JsonVal) × List Char)
  | 0, _ => none
  | fuel + 1, s =>
    match skipWs s with
    | '"' :: r =>
      (parseStrBody r).bind (fun kp =>
        match skipWs kp.2 with
        | ':' :: r2 =>
          (parseVal fuel r2).bind (fun vp =>
            match skipWs vp.2 with
            | ',' :: r3 =>
              (parseObjItems fuel r3).map (fun q => ((String.mk kp.1, vp.1) :: q.1, q.2))
            | '}' :: r3 => some ([(String.mk kp.1, vp.1)], r3)
            | _ => none)
        | _ => none)
    | _ => none

end

/-- `json.loads`: parse a complete document, allowing trailing whitespace
only. -/
def json_loads (s : List Char) : Option JsonVal :=
  match parseVal (2 * s.length + 2) s with
  | some p => if skipWs p.2 = [] then some p.1 else none
  | none => none

/-- Whether the input begins with a decimal digit (the only way a following
token can be absorbed into a preceding number literal). -/
def digitStart : List Char → Bool
  | [] => false
  | c :: _ => isDigitChar c

/-- Number of decimal digits of a natural number. -/
def numDigits (n : Nat) : Nat :=
  if n < 10 then 1 else numDigits (n / 10) + 1
termination_by n
decreasing_by
  exact Nat.div_lt_self (by omega) (by omega)

/-- The parser recovers `v` from its serialization, leaving any suffix that
does not begin with a digit intact, at any recursion budget of at least twice
the serialized length. -/
def ValOk (v : JsonVal) : Prop :=
  ∀ fuel rest, 2 * (json_dumps v).length ≤ fuel → digitStart rest = false →
    parseVal fuel (json_dumps v ++ rest) = some (v, rest)

/-! ### Python semantics of `field in data` and the validation loop -/

/-- Python `==` between a JSON value and a string: only a string compares
equal to a string. -/
def jsonEqStr (x : JsonVal) (s : String) : Bool :=
  match x with
  | .str t => t == s
  | _ => false

/-- Key-presence test on an object (Python `field in dict`). -/
def hasKey (kvs : List (String × JsonVal)) (field : String) : Bool :=
  kvs.any (fun kv => kv.1 == field)

/-- Substring test (Python `field in str`). -/
def hasSubList (needle : List Char) : List Char → Bool
  | [] => needle.isEmpty
  | c :: t => needle.isPrefixOf (c :: t) || hasSubList needle t

/-- Python's `field in data` on a parsed JSON value: key membership for a
dict, element membership for a list, substring for a string, and a
`TypeError` for the non-container values `None`, booleans and numbers. -/
def jsonContains (v : JsonVal) (field : String) : Except PyErr Bool :=
  match v with
  | .obj kvs => .ok (hasKey kvs field)
  | .arr xs => .ok (xs.any (fun x => jsonEqStr x field))
  | .str s => .ok (hasSubList field.data s.data)
  | _ => .error "argument of type is not iterable"

/-- The `required_fields` list of `predict`, in source order. -/
def required_fields : List String :=
  ["age", "gender", "smoking", "drinking", "familyHistory", "exerciseFrequency"]

/-- The validation loop of `predict`: the first field of `fields` that is not
in `data` (the loop returns a 400 for it), `none` when all are present, or the
`TypeError` raised by `in` on a non-container. -/
def firstMissingField : List String → JsonVal → Except PyErr (Option String)
  | [], _ => .ok none
  | f :: fs, data =>
    match jsonContains data f with
    | .error e => .error e
    | .ok true => firstMissingField fs data
    | .ok false => .ok (some f)

/-! ### The `predictions` table and the SQL statements the service issues -/

/-- One row of the `predictions` table.  `created_at` is an abstract
timestamp; `id` is the auto-increment primary key. -/
structure PredRow where
  id : Nat
  patient_data : List Char
  risk_score : Int
  risk_level : String
  confidence : Int
  created_at : Nat
deriving DecidableEq

/-- The state of the `predictions` table, with the next auto-increment id. -/
structure Db where
  rows : List PredRow
  nextId : Nat
deriving DecidableEq

/-- The only SQL statements appearing in `app.py`: the parameterized
single-row `INSERT` of `predict` and the `SELECT ... ORDER BY created_at DESC
LIMIT 100` of `get_patients`. -/
inductive SqlStmt where
  | insertPrediction (patient_data : List Char) (risk_score : Int) (risk_level : String)
      (confidence : Int) (created_at : Nat) : SqlStmt
  | selectRecent (limit : Nat) : SqlStmt
deriving DecidableEq

/-- Effect of a statement on the table: the `INSERT` appends one row, the
`SELECT` leaves the table unchanged. -/
def applySql (db : Db) : SqlStmt → Db
  | .insertPrediction pd rs rl cf ts =>
      Db.mk (db.rows ++ [PredRow.mk db.nextId pd rs rl cf ts]) (db.nextId + 1)
  | .selectRecent _ => db

/-! ### Recommendation lookup -/

/-- The hardcoded `recommendations` dictionary built by
`get_recommendations`. -/
def recommendationTable : List (String × List String) :=
  [("Low",
    ["Continue regular health checkups",
     "Maintain healthy lifestyle",
     "Annual screening recommended"]),
   ("Medium",
    ["Schedule consultation with oncologist",
     "Consider additional screening tests",
     "Monitor symptoms closely",
     "Lifestyle modifications recommended"]),
   ("High",
    ["Immediate consultation with oncologist required",
     "Comprehensive diagnostic workup needed",
     "Consider genetic counseling",
     "Frequent monitoring essential"])]

/-- `get_recommendations`: dictionary lookup with `[]` as the default. -/
def get_recommendations (risk_level : String) : List String :=
  match recommendationTable.find? (fun kv => kv.1 == risk_level) with
  | some kv => kv.2
  | none => []

/-! ### The four Flask handlers -/

/-- A `jsonify`-style error body. -/
def errorJson (msg : String) : JsonVal := .obj [("error", .str msg)]

/-- The generic 500 body produced by the `except` block of `predict` and
`get_patients`. -/
def internalError : JsonVal := errorJson "Internal server error"

/-- The 200 body of `predict`. -/
def predictResponse (risk_score : Int) (risk_level : String) (confidence : Int) : JsonVal :=
  .obj [("riskScore", .num risk_score),
        ("riskLevel", .str risk_level),
        ("confidence", .num confidence),
        ("recommendations", .arr ((get_recommendations risk_level).map JsonVal.str))]

/-- Field lookup in a JSON object body (used to read a response). -/
def responseField (body : JsonVal) (key : String) : Option JsonVal :=
  match body with
  | .obj kvs => (kvs.find? (fun kv => kv.1 == key)).map (fun kv => kv.2)
  | _ => none

/-- Observable outcome of one `POST /api/predict` request: HTTP status and
body, the resulting table state, the SQL statements issued, and whether
`predict_cancer_risk` was invoked. -/
structure PredictResult where
  status : Nat
  body : JsonVal
  db : Db
  sql : List SqlStmt
  adapterCalled : Bool

/-- The `predict` handler.  `getJson` is the outcome of `request.get_json()`
(an exception for a malformed body), `adapter` is `predict_cancer_risk`,
`insertOk` says whether the database connection and `INSERT` succeed, and
`now` is `datetime.now()`.  The surrounding `try`/`except` maps any raised
exception to a 500 with a generic body. -/
def predict (getJson : Except PyErr JsonVal)
    (adapter : JsonVal → Except PyErr (Int × String × Int))
    (insertOk : Bool) (now : Nat) (db : Db) : PredictResult :=
  match getJson with
  | .error _ => PredictResult.mk 500 internalError db [] false
  | .ok data =>
    match firstMissingField required_fields data with
    | .error _ => PredictResult.mk 500 internalError db [] false
    | .ok (some f) =>
        PredictResult.mk 400 (errorJson ("Missing required field: " ++ f)) db [] false
    | .ok none =>
      match adapter data with
      | .error _ => PredictResult.mk 500 internalError db [] true
      | .ok (rs, rl, cf) =>
        let stmt := SqlStmt.insertPrediction (json_dumps data) rs rl cf now
        if insertOk then
          PredictResult.mk 200 (predictResponse rs rl cf)
            (applySql db stmt) [stmt] true
        else
          PredictResult.mk 500 internalError db [stmt] true

/-- `datetime.isoformat`, modelled as an abstract rendering of the
timestamp. -/
def isoformat (t : Nat) : String := toString t

/-- The row set produced by `SELECT ... ORDER BY created_at DESC LIMIT 100`:
the table rows sorted by descending creation time, truncated to 100. -/
def selectRecent (db : Db) : List PredRow :=
  (db.rows.mergeSort (fun a b => decide (b.created_at ≤ a.created_at))).take 100

/-- Per-row shaping performed by `get_patients`: `json.loads` on the stored
`patient_data` (an exception on undecodable text) and `isoformat` on the
timestamp. -/
def rowToJson (r : PredRow) : Except PyErr JsonVal :=
  match json_loads r.patient_data with
  | none => .error "Expecting value"
  | some pd =>
      .ok (.obj [("id", .num (Int.ofNat r.id)),
                 ("patient_data", pd),
                 ("risk_score", .num r.risk_score),
                 ("risk_level", .str r.risk_level),
                 ("confidence", .num r.confidence),
                 ("created_at", .str (isoformat r.created_at))])

/-- The `for prediction in predictions` loop of `get_patients`, propagating
the first exception. -/
def mapRows : List PredRow → Except PyErr (List JsonVal)
  | [] => .ok []
  | r :: rs =>
    match rowToJson r with
    | .error e => .error e
    | .ok j =>
      match mapRows rs with
      | .error e => .error e
      | .ok js => .ok (j :: js)

/-- Observable outcome of one `GET /api/patients` request. -/
structure PatientsResult where
  status : Nat
  body : JsonVal
  db : Db
  sql : List SqlStmt

/-- The `get_patients` handler.  `connOk` says whether the database
connection and `SELECT` succeed. -/
def get_patients (connOk : Bool) (db : Db) : PatientsResult :=
  if connOk then
    match mapRows (selectRecent db) with
    | .ok js =>
        PatientsResult.mk 200 (.arr js) (applySql db (.selectRecent 100)) [.selectRecent 100]
    | .error _ => PatientsResult.mk 500 internalError db [.selectRecent 100]
  else PatientsResult.mk 500 internalError db []

/-- Observable outcome of one `POST /api/train` request. -/
structure TrainResult where
  status : Nat
  body : JsonVal
  db : Db
  sql : List SqlStmt

/-- The `train_model` handler; `trainOutcome` is the result of
`train_models()`. -/
def train_model (trainOutcome : Except PyErr JsonVal) (db : Db) : TrainResult :=
  match trainOutcome with
  | .ok results =>
      TrainResult.mk 200
        (.obj [("message", .str "Model training completed"), ("results", results)]) db []
  | .error _ => TrainResult.mk 500 (errorJson "Model training failed") db []

/-- The `index` handler (`GET /`). -/
def index : Nat × JsonVal :=
  (200, .obj [("message", .str "Cancer Prediction API"), ("status", .str "running")])

/-! ## Lemmas: characters and decimal literals -/

theorem isDigitChar_iff (c : Char) : isDigitChar c = true ↔ 48 ≤ c.toNat ∧ c.toNat ≤ 57 := by
  simp [isDigitChar]

theorem ofNat_digit_isDigit (n : Nat) (h : n < 10) :
    isDigitChar (Char.ofNat (48 + n)) = true := by
  interval_cases n <;> decide

theorem ofNat_digit_val (n : Nat) (h : n < 10) :
    digitVal (Char.ofNat (48 + n)) = n := by
  interval_cases n <;> decide

theorem digit_not_ws (c : Char) (h : isDigitChar c = true) : isWsChar c = false := by
  have hb := (isDigitChar_iff c).mp h
  cases hw : isWsChar c with
  | false => rfl
  | true =>
    exfalso
    have hw' : ((c.toNat = 32 ∨ c.toNat = 9) ∨ c.toNat = 10) ∨ c.toNat = 13 := by
      simpa [isWsChar] using hw
    omega

theorem digit_ne (c : Char) (h : isDigitChar c = true) (d : Char)
    (hd : isDigitChar d = false) : c ≠ d := by
  intro he
  rw [he] at h
  rw [h] at hd
  exact Bool.noConfusion hd

theorem skipWs_cons_true (c : Char) (cs : List Char) (h : isWsChar c = true) :
    skipWs (c :: cs) = skipWs cs := by
  simp [skipWs, h]

theorem skipWs_cons_false (c : Char) (cs : List Char) (h : isWsChar c = false) :
    skipWs (c :: cs) = c :: cs := by
  simp [skipWs, h]

theorem natChars_ne_nil (n : Nat) : natChars n ≠ [] := by
  rw [natChars]
  split <;> simp

theorem natChars_digits (n : Nat) : ∀ c ∈ natChars n, isDigitChar c = true := by
  induction n using Nat.strong_induction_on with
  | _ n ih =>
    rw [natChars]
    split
    · next h =>
      intro c hc
      simp only [List.mem_singleton] at hc
      subst hc
      exact ofNat_digit_isDigit n h
    · next h =>
      intro c hc
      rw [List.mem_append] at hc
      rcases hc with hc | hc
      · exact ih (n / 10) (Nat.div_lt_self (by omega) (by omega)) c hc
      · simp only [List.mem_singleton] at hc
        subst hc
        exact ofNat_digit_isDigit _ (Nat.mod_lt _ (by omega))

theorem readDigits_stop (s : List Char) (acc : Nat) (h : digitStart s = false) :
    readDigits s acc = (acc, s) := by
  cases s with
  | nil => rfl
  | cons c cs =>
    have hc : isDigitChar c = false := h
    simp [readDigits, hc]

theorem readDigits_natChars (n : Nat) : ∀ acc rest,
    readDigits (natChars n ++ rest) acc =
      readDigits rest (acc * 10 ^ numDigits n + n) := by
  induction n using Nat.strong_induction_on with
  | _ n ih =>
    intro acc rest
    rw [natChars]
    split
    · next h =>
      simp only [List.cons_append, List.nil_append]
      rw [readDigits, if_pos (ofNat_digit_isDigit n h), ofNat_digit_val n h]
      rw [numDigits, if_pos h]
      norm_num
    · next h =>
      rw [List.append_assoc]
      rw [ih (n / 10) (Nat.div_lt_self (by omega) (by omega))]
      simp only [List.cons_append, List.nil_append]
      rw [readDigits, if_pos (ofNat_digit_isDigit _ (Nat.mod_lt _ (by omega)))]
      rw [ofNat_digit_val _ (Nat.mod_lt _ (by omega))]
      have hnd : numDigits n = numDigits (n / 10) + 1 := by
        rw [numDigits, if_neg h]
      rw [hnd, pow_succ, ← mul_assoc]
      generalize acc * 10 ^ numDigits (n / 10) = A
      congr 1
      omega

theorem parseNum_natChars (n : Nat) (rest : List Char) (h : digitStart rest = false) :
    parseNum (natChars n ++ rest) = some (n, rest) := by
  obtain ⟨c, cs, hc⟩ : ∃ c cs, natChars n = c :: cs := by
    cases hn : natChars n with
    | nil => exact absurd hn (natChars_ne_nil n)
    | cons c cs => exact ⟨c, cs, rfl⟩
  have hd : isDigitChar c = true := natChars_digits n c (by rw [hc]; exact List.mem_cons_self c cs)
  rw [hc]
  simp only [List.cons_append]
  rw [parseNum, if_pos hd]
  rw [show c :: (cs ++ rest) = natChars n ++ rest by rw [hc]; simp]
  rw [readDigits_natChars n 0 rest, readDigits_stop rest _ h]
  norm_num

/-! ## Lemmas: string literals -/

theorem parseStrBody_escape (cs rest : List Char) :
    parseStrBody (escapeChars cs ++ '"' :: rest) = some (cs, rest) := by
  induction cs with
  | nil =>
    rw [show escapeChars [] = [] from rfl, List.nil_append, parseStrBody.eq_def]
    simp
  | cons c cs ih =>
    by_cases hc : c = '"' ∨ c = '\\'
    · have he : escapeChars (c :: cs) = '\\' :: c :: escapeChars cs := by
        rcases hc with rfl | rfl <;> simp [escapeChars]
      rw [he]
      simp only [List.cons_append]
      rw [parseStrBody.eq_def]
      rcases hc with rfl | rfl <;> simp [unescapeChar, ih]
    · push_neg at hc
      have he : escapeChars (c :: cs) = c :: escapeChars cs := by
        simp [escapeChars, hc.1, hc.2]
      rw [he]
      simp only [List.cons_append]
      rw [parseStrBody.eq_def]
      simp [hc.1, hc.2, ih]

/-! ## Lemmas: leading characters of serialized values -/

theorem json_dumps_head (v : JsonVal) :
    ∃ c cs, json_dumps v = c :: cs ∧ isWsChar c = false ∧ c ≠ ']' ∧ c ≠ '}' := by
  cases v with
  | null => exact ⟨'n', _, rfl, by decide, by decide, by decide⟩
  | bool b =>
    cases b with
    | false => exact ⟨'f', _, rfl, by decide, by decide, by decide⟩
    | true => exact ⟨'t', _, rfl, by decide, by decide, by decide⟩
  | num i =>
    show ∃ c cs, intChars i = c :: cs ∧ _
    rw [intChars]
    split
    · exact ⟨'-', _, rfl, by decide, by decide, by decide⟩
    · obtain ⟨c, cs, hc⟩ : ∃ c cs, natChars i.toNat = c :: cs := by
        cases hn : natChars i.toNat with
        | nil => exact absurd hn (natChars_ne_nil _)
        | cons c cs => exact ⟨c, cs, rfl⟩
      have hd : isDigitChar c = true :=
        natChars_digits _ c (by rw [hc]; exact List.mem_cons_self c cs)
      exact ⟨c, cs, hc, digit_not_ws c hd, digit_ne c hd ']' (by decide),
        digit_ne c hd '}' (by decide)⟩
  | str s => exact ⟨'"', _, rfl, by decide, by decide, by decide⟩
  | arr xs =>
    cases xs with
    | nil => exact ⟨'[', _, rfl, by decide, by decide, by decide⟩
    | cons x xs => exact ⟨'[', _, rfl, by decide, by decide, by decide⟩
  | obj kvs =>
    cases kvs with
    | nil => exact ⟨'{', _, rfl, by decide, by decide, by decide⟩
    | cons kv kvs => exact ⟨'{', _, rfl, by decide, by decide, by decide⟩

theorem skipWs_dumps_append (v : JsonVal) (t : List Char) :
    skipWs (json_dumps v ++ t) = json_dumps v ++ t := by
  obtain ⟨c, cs, hv, hws, _, _⟩ := json_dumps_head v
  rw [hv]
  simp only [List.cons_append]
  exact skipWs_cons_false c _ hws

/-! ## Lemmas: unfolding equations for the fuel-indexed parser -/

theorem parseVal_zero (s : List Char) : parseVal 0 s = none := by
  rw [parseVal.eq_def]

theorem parseVal_succ (fuel : Nat) (s : List Char) :
    parseVal (fuel + 1) s =
      (match skipWs s with
      | [] => none
      | c :: r =>
        if c = 'n' then
          match r with
          | 'u' :: 'l' :: 'l' :: r2 => some (JsonVal.null, r2)
          | _ => none
        else if c = 't' then
          match r with
          | 'r' :: 'u' :: 'e' :: r2 => some (JsonVal.bool true, r2)
          | _ => none
        else if c = 'f' then
          match r with
          | 'a' :: 'l' :: 's' :: 'e' :: r2 => some (JsonVal.bool false, r2)
          | _ => none
        else if c = '"' then
          (parseStrBody r).map (fun p => (JsonVal.str (String.mk p.1), p.2))
        else if c = '[' then parseArrBody fuel r
        else if c = '{' then parseObjBody fuel r
        else if c = '-' then
          (parseNum r).map (fun p => (JsonVal.num (-(p.1 : Int)), p.2))
        else if isDigitChar c then
          (parseNum (c :: r)).map (fun p => (JsonVal.num (p.1 : Int), p.2))
        else none) := by
  rw [parseVal.eq_def]

theorem parseArrItems_zero (s : List Char) : parseArrItems 0 s = none := by
  rw [parseArrItems.eq_def]

theorem parseArrItems_succ (fuel : Nat) (s : List Char) :
    parseArrItems (fuel + 1) s =
      (parseVal fuel s).bind (fun p =>
        match skipWs p.2 with
        | ',' :: r2 => (parseArrItems fuel r2).map (fun q => (p.1 :: q.1, q.2))
        | ']' :: r2 => some ([p.1], r2)
        | _ => none) := by
  rw [parseArrItems.eq_def]

theorem parseObjItems_zero (s : List Char) : parseObjItems 0 s = none := by
  rw [parseObjItems.eq_def]

theorem parseObjItems_succ (fuel : Nat) (s : List Char) :
    parseObjItems (fuel + 1) s =
      (match skipWs s with
      | '"' :: r =>
        (parseStrBody r).bind (fun kp =>
          match skipWs kp.2 with
          | ':' :: r2 =>
            (parseVal fuel r2).bind (fun vp =>
              match skipWs vp.2 with
              | ',' :: r3 =>
                (parseObjItems fuel r3).map
                  (fun q => ((String.mk kp.1, vp.1) :: q.1, q.2))
              | '}' :: r3 => some ([(String.mk kp.1, vp.1)], r3)
              | _ => none)
          | _ => none)
      | _ => none) := by
  rw [parseObjItems.eq_def]

theorem parseArrBody_eq (fuel : Nat) (r : List Char) :
    parseArrBody fuel r =
      (match skipWs r with
      | [] => none
      | c :: r2 =>
        if c = ']' then some (JsonVal.arr [], r2)
        else (parseArrItems fuel (c :: r2)).map (fun p => (JsonVal.arr p.1, p.2))) := by
  rw [parseArrBody.eq_def]

theorem parseObjBody_eq (fuel : Nat) (r : List Char) :
    parseObjBody fuel r =
      (match skipWs r with
      | [] => none
      | c :: r2 =>
        if c = '}' then some (JsonVal.obj [], r2)
        else (parseObjItems fuel (c :: r2)).map (fun p => (JsonVal.obj p.1, p.2))) := by
  rw [parseObjBody.eq_def]

theorem parseVal_succ_cons (fuel : Nat) (c : Char) (r : List Char) (hws : isWsChar c = false) :
    parseVal (fuel + 1) (c :: r) =
      (if c = 'n' then
        match r with
        | 'u' :: 'l' :: 'l' :: r2 => some (JsonVal.null, r2)
        | _ => none
      else if c = 't' then
        match r with
        | 'r' :: 'u' :: 'e' :: r2 => some (JsonVal.bool true, r2)
        | _ => none
      else if c = 'f' then
        match r with
        | 'a' :: 'l' :: 's' :: 'e' :: r2 => some (JsonVal.bool false, r2)
        | _ => none
      else if c = '"' then
        (parseStrBody r).map (fun p => (JsonVal.str (String.mk p.1), p.2))
      else if c = '[' then parseArrBody fuel r
      else if c = '{' then parseObjBody fuel r
      else if c = '-' then
        (parseNum r).map (fun p => (JsonVal.num (-(p.1 : Int)), p.2))
      else if isDigitChar c then
        (parseNum (c :: r)).map (fun p => (JsonVal.num (p.1 : Int), p.2))
      else none) := by
  rw [parseVal_succ, skipWs_cons_false c r hws]

/-! ## Lemmas: the parser ignores one leading space -/

theorem parseVal_space (fuel : Nat) (t : List Char) :
    parseVal fuel (' ' :: t) = parseVal fuel t := by
  cases fuel with
  | zero => rw [parseVal_zero, parseVal_zero]
  | succ f =>
    rw [parseVal_succ, parseVal_succ, skipWs_cons_true ' ' t (by decide)]

theorem parseArrItems_space (fuel : Nat) (t : List Char) :
    parseArrItems fuel (' ' :: t) = parseArrItems fuel t := by
  cases fuel with
  | zero => rw [parseArrItems_zero, parseArrItems_zero]
  | succ f =>
    rw [parseArrItems_succ, parseArrItems_succ, parseVal_space]

theorem parseObjItems_space (fuel : Nat) (t : List Char) :
    parseObjItems fuel (' ' :: t) = parseObjItems fuel t := by
  cases fuel with
  | zero => rw [parseObjItems_zero, parseObjItems_zero]
  | succ f =>
    rw [parseObjItems_succ, parseObjItems_succ, skipWs_cons_true ' ' t (by decide)]

theorem digitStart_cons (c : Char) (t : List Char) : digitStart (c :: t) = isDigitChar c := rfl

/-! ## Round trip: scalar values -/

theorem valOk_null : ValOk .null := by
  intro fuel rest hf hrest
  obtain ⟨f, rfl⟩ : ∃ f, fuel = f + 1 := ⟨fuel - 1, by
    have h4 : (json_dumps JsonVal.null).length = 4 := rfl
    omega⟩
  rw [show json_dumps JsonVal.null = ['n', 'u', 'l', 'l'] from rfl]
  rw [parseVal_succ]
  simp only [List.cons_append, List.nil_append]
  rw [skipWs_cons_false 'n' _ (by decide)]
  simp

theorem valOk_bool (b : Bool) : ValOk (.bool b) := by
  intro fuel rest hf hrest
  cases b with
  | true =>
    obtain ⟨f, rfl⟩ : ∃ f, fuel = f + 1 := ⟨fuel - 1, by
      have h4 : (json_dumps (JsonVal.bool true)).length = 4 := rfl
      omega⟩
    rw [show json_dumps (JsonVal.bool true) = ['t', 'r', 'u', 'e'] from rfl]
    rw [parseVal_succ]
    simp only [List.cons_append, List.nil_append]
    rw [skipWs_cons_false 't' _ (by decide)]
    simp
  | false =>
    obtain ⟨f, rfl⟩ : ∃ f, fuel = f + 1 := ⟨fuel - 1, by
      have h5 : (json_dumps (JsonVal.bool false)).length = 5 := rfl
      omega⟩
    rw [show json_dumps (JsonVal.bool false) = ['f', 'a', 'l', 's', 'e'] from rfl]
    rw [parseVal_succ]
    simp only [List.cons_append, List.nil_append]
    rw [skipWs_cons_false 'f' _ (by decide)]
    simp

theorem valOk_str (s : String) : ValOk (.str s) := by
  intro fuel rest hf hrest
  rw [json_dumps] at hf ⊢
  obtain ⟨f, rfl⟩ : ∃ f, fuel = f + 1 := ⟨fuel - 1, by
    simp only [List.length_cons] at hf
    omega⟩
  rw [parseVal_succ]
  simp only [List.cons_append]
  rw [skipWs_cons_false '"' _ (by decide)]
  simp only [show ('"' = 'n') = False by simp, show ('"' = 't') = False by simp,
    show ('"' = 'f') = False by simp, if_false, if_true, eq_self_iff_true]
  rw [List.append_assoc]
  simp only [List.cons_append, List.nil_append]
  rw [parseStrBody_escape s.data rest]
  rfl

theorem valOk_num (i : Int) : ValOk (.num i) := by
  intro fuel rest hf hrest
  rw [json_dumps] at hf ⊢
  rw [intChars] at hf ⊢
  by_cases hneg : i < 0
  · rw [if_pos hneg] at hf ⊢
    obtain ⟨f, rfl⟩ : ∃ f, fuel = f + 1 := ⟨fuel - 1, by
      simp only [List.length_cons] at hf
      omega⟩
    rw [parseVal_succ]
    simp only [List.cons_append]
    rw [skipWs_cons_false '-' _ (by decide)]
    simp only [show ('-' = 'n') = False by simp, show ('-' = 't') = False by simp,
      show ('-' = 'f') = False by simp, show ('-' = '"') = False by simp,
      show ('-' = '[') = False by simp, show ('-' = '{') = False by simp,
      if_false, if_true, eq_self_iff_true]
    rw [parseNum_natChars _ rest hrest]
    have hi : -((i.natAbs : Nat) : Int) = i := by omega
    rw [show Option.map (fun p => (JsonVal.num (-(p.1 : Int)), p.2))
        (some (i.natAbs, rest)) = some (JsonVal.num (-((i.natAbs : Nat) : Int)), rest)
      from rfl, hi]
  · rw [if_neg hneg] at hf ⊢
    obtain ⟨d, ds, hd⟩ : ∃ d ds, natChars i.toNat = d :: ds := by
      cases hn : natChars i.toNat with
      | nil => exact absurd hn (natChars_ne_nil _)
      | cons d ds => exact ⟨d, ds, rfl⟩
    have hdig : isDigitChar d = true :=
      natChars_digits _ d (by rw [hd]; exact List.mem_cons_self d ds)
    obtain ⟨f, rfl⟩ : ∃ f, fuel = f + 1 := ⟨fuel - 1, by
      rw [hd] at hf
      simp only [List.length_cons] at hf
      omega⟩
    rw [hd]
    simp only [List.cons_append]
    rw [parseVal_succ_cons f d _ (digit_not_ws d hdig)]
    rw [if_neg (digit_ne d hdig 'n' (by decide)), if_neg (digit_ne d hdig 't' (by decide)),
      if_neg (digit_ne d hdig 'f' (by decide)), if_neg (digit_ne d hdig '"' (by decide)),
      if_neg (digit_ne d hdig '[' (by decide)), if_neg (digit_ne d hdig '{' (by decide)),
      if_neg (digit_ne d hdig '-' (by decide)), if_pos hdig]
    rw [show d :: (ds ++ rest) = natChars i.toNat ++ rest by rw [hd]; simp]
    rw [parseNum_natChars _ rest hrest]
    have hi : ((i.toNat : Nat) : Int) = i := by omega
    rw [show Option.map (fun p => (JsonVal.num ((p.1 : Nat) : Int), p.2))
        (some (i.toNat, rest)) = some (JsonVal.num ((i.toNat : Nat) : Int), rest)
      from rfl, hi]

/-! ## Round trip: one step of the element loops -/

theorem parseArrItems_step_comma (fuel : Nat) (s : List Char) (v : JsonVal) (r2 : List Char)
    (h : parseVal fuel s = some (v, ',' :: r2)) :
    parseArrItems (fuel + 1) s = (parseArrItems fuel r2).map (fun q => (v :: q.1, q.2)) := by
  rw [parseArrItems_succ, h]
  rfl

theorem parseArrItems_step_close (fuel : Nat) (s : List Char) (v : JsonVal) (r2 : List Char)
    (h : parseVal fuel s = some (v, ']' :: r2)) :
    parseArrItems (fuel + 1) s = some ([v], r2) := by
  rw [parseArrItems_succ, h]
  rfl

theorem parseObjItems_step_comma (fuel : Nat) (r kr vr kcs : List Char) (v : JsonVal)
    (hk : parseStrBody r = some (kcs, ':' :: ' ' :: kr))
    (hv : parseVal fuel (' ' :: kr) = some (v, ',' :: vr)) :
    parseObjItems (fuel + 1) ('"' :: r) =
      (parseObjItems fuel vr).map (fun q => ((String.mk kcs, v) :: q.1, q.2)) := by
  rw [parseObjItems_succ]
  rw [skipWs_cons_false '"' r (by decide)]
  simp only [hk, Option.some_bind]
  rw [show skipWs (':' :: ' ' :: kr) = ':' :: ' ' :: kr from skipWs_cons_false _ _ (by decide)]
  simp only [hv, Option.some_bind]
  rw [show skipWs (',' :: vr) = ',' :: vr from skipWs_cons_false _ _ (by decide)]
  rfl

theorem parseObjItems_step_close (fuel : Nat) (r kr vr kcs : List Char) (v : JsonVal)
    (hk : parseStrBody r = some (kcs, ':' :: ' ' :: kr))
    (hv : parseVal fuel (' ' :: kr) = some (v, '}' :: vr)) :
    parseObjItems (fuel + 1) ('"' :: r) = some ([(String.mk kcs, v)], vr) := by
  rw [parseObjItems_succ]
  rw [skipWs_cons_false '"' r (by decide)]
  simp only [hk, Option.some_bind]
  rw [show skipWs (':' :: ' ' :: kr) = ':' :: ' ' :: kr from skipWs_cons_false _ _ (by decide)]
  simp only [hv, Option.some_bind]
  rw [show skipWs ('}' :: vr) = '}' :: vr from skipWs_cons_false _ _ (by decide)]
  rfl

/-! ## Round trip: comma-separated element lists -/

theorem parseArrItems_chunk : ∀ (xs : List JsonVal) (x : JsonVal),
    ValOk x → (∀ y ∈ xs, ValOk y) → ∀ (fuel : Nat) (rest : List Char),
    2 * ((json_dumps x).length + (dumpsArrTail xs).length + 1) ≤ fuel →
    digitStart rest = false →
    parseArrItems fuel (json_dumps x ++ (dumpsArrTail xs ++ ']' :: rest))
      = some (x :: xs, rest) := by
  intro xs
  induction xs with
  | nil =>
    intro x hx _ fuel rest hf hrest
    have h0 : (dumpsArrTail ([] : List JsonVal)).length = 0 := rfl
    obtain ⟨f, rfl⟩ : ∃ f, fuel = f + 1 := ⟨fuel - 1, by omega⟩
    rw [show dumpsArrTail ([] : List JsonVal) = [] from rfl, List.nil_append]
    exact parseArrItems_step_close f _ x rest
      (hx f (']' :: rest) (by omega) (by rw [digitStart_cons]; decide))
  | cons y ys ih =>
    intro x hx hmem fuel rest hf hrest
    have hlen : (dumpsArrTail (y :: ys)).length
        = 2 + ((json_dumps y).length + (dumpsArrTail ys).length) := by
      rw [dumpsArrTail]
      simp [List.length_append]
      omega
    obtain ⟨f, rfl⟩ : ∃ f, fuel = f + 1 := ⟨fuel - 1, by omega⟩
    rw [show dumpsArrTail (y :: ys) = ',' :: ' ' :: (json_dumps y ++ dumpsArrTail ys)
      from by rw [dumpsArrTail]]
    simp only [List.cons_append]
    have hx' := hx f (',' :: ' ' :: ((json_dumps y ++ dumpsArrTail ys) ++ ']' :: rest))
      (by omega) (by rw [digitStart_cons]; decide)
    rw [parseArrItems_step_comma f _ x _ hx']
    rw [parseArrItems_space, List.append_assoc]
    rw [ih y (hmem y (by simp)) (fun z hz => hmem z (by simp [hz])) f rest (by omega) hrest]
    rfl

theorem parseObjItems_chunk : ∀ (kvs : List (String × JsonVal)) (k : String) (v : JsonVal),
    ValOk v → (∀ e ∈ kvs, ValOk e.2) → ∀ (fuel : Nat) (rest : List Char),
    2 * ((dumpsEntry (k, v)).length + (dumpsObjTail kvs).length + 1) ≤ fuel →
    digitStart rest = false →
    parseObjItems fuel (dumpsEntry (k, v) ++ (dumpsObjTail kvs ++ '}' :: rest))
      = some ((k, v) :: kvs, rest) := by
  intro kvs
  induction kvs with
  | nil =>
    intro k v hv _ fuel rest hf hrest
    have h0 : (dumpsObjTail ([] : List (String × JsonVal))).length = 0 := rfl
    have hde : dumpsEntry (k, v)
        = '"' :: (escapeChars k.data ++ '"' :: ':' :: ' ' :: json_dumps v) := by
      rw [dumpsEntry]
    have hdel : (dumpsEntry (k, v)).length
        = 4 + (escapeChars k.data).length + (json_dumps v).length := by
      rw [hde]
      simp [List.length_append]
      omega
    obtain ⟨f, rfl⟩ : ∃ f, fuel = f + 1 := ⟨fuel - 1, by omega⟩
    rw [show dumpsObjTail ([] : List (String × JsonVal)) = [] from rfl, List.nil_append]
    rw [hde]
    simp only [List.cons_append, List.append_assoc]
    have hv' := hv f ('}' :: rest) (by omega) (by rw [digitStart_cons]; decide)
    rw [parseObjItems_step_close f _ (json_dumps v ++ '}' :: rest) rest k.data v
      (parseStrBody_escape k.data (':' :: ' ' :: (json_dumps v ++ '}' :: rest)))
      (by rw [parseVal_space]; exact hv')]
  | cons e es ih =>
    intro k v hv hmem fuel rest hf hrest
    have hde : dumpsEntry (k, v)
        = '"' :: (escapeChars k.data ++ '"' :: ':' :: ' ' :: json_dumps v) := by
      rw [dumpsEntry]
    have hdel : (dumpsEntry (k, v)).length
        = 4 + (escapeChars k.data).length + (json_dumps v).length := by
      rw [hde]
      simp [List.length_append]
      omega
    have hlen : (dumpsObjTail (e :: es)).length
        = 2 + ((dumpsEntry e).length + (dumpsObjTail es).length) := by
      rw [dumpsObjTail]
      simp [List.length_append]
      omega
    obtain ⟨f, rfl⟩ : ∃ f, fuel = f + 1 := ⟨fuel - 1, by omega⟩
    rw [show dumpsObjTail (e :: es) = ',' :: ' ' :: (dumpsEntry e ++ dumpsObjTail es)
      from by rw [dumpsObjTail]]
    rw [hde]
    simp only [List.cons_append, List.append_assoc]
    have hv' := hv f (',' :: ' ' :: (dumpsEntry e ++ (dumpsObjTail es ++ '}' :: rest)))
      (by omega) (by rw [digitStart_cons]; decide)
    rw [parseObjItems_step_comma f _
      (json_dumps v ++ ',' :: ' ' :: (dumpsEntry e ++ (dumpsObjTail es ++ '}' :: rest)))
      (' ' :: (dumpsEntry e ++ (dumpsObjTail es ++ '}' :: rest))) k.data v
      (parseStrBody_escape k.data _)
      (by rw [parseVal_space]; exact hv')]
    rw [parseObjItems_space]
    obtain ⟨ek, ev⟩ := e
    rw [ih ek ev (hmem (ek, ev) (by simp)) (fun z hz => hmem z (by simp [hz])) f rest
      (by omega) hrest]
    rfl

/-! ## Round trip: container openers -/

theorem parseArrBody_cons (fuel : Nat) (c : Char) (r2 : List Char) (hws : isWsChar c = false) :
    parseArrBody fuel (c :: r2) =
      (if c = ']' then some (JsonVal.arr [], r2)
       else (parseArrItems fuel (c :: r2)).map (fun p => (JsonVal.arr p.1, p.2))) := by
  rw [parseArrBody_eq, skipWs_cons_false c r2 hws]

theorem parseObjBody_cons (fuel : Nat) (c : Char) (r2 : List Char) (hws : isWsChar c = false) :
    parseObjBody fuel (c :: r2) =
      (if c = '}' then some (JsonVal.obj [], r2)
       else (parseObjItems fuel (c :: r2)).map (fun p => (JsonVal.obj p.1, p.2))) := by
  rw [parseObjBody_eq, skipWs_cons_false c r2 hws]

/-! ## Round trip: every serialized value parses back -/

theorem json_dumps_valOk : ∀ v, ValOk v := by
  intro v
  induction v using JsonVal.inductionOn with
  | hnull => exact valOk_null
  | hbool b => exact valOk_bool b
  | hnum n => exact valOk_num n
  | hstr s => exact valOk_str s
  | harr xs hxs =>
    cases xs with
    | nil =>
      intro fuel rest hf hrest
      have h2 : (json_dumps (JsonVal.arr [])).length = 2 := rfl
      obtain ⟨f, rfl⟩ : ∃ f, fuel = f + 1 := ⟨fuel - 1, by omega⟩
      rw [show json_dumps (JsonVal.arr []) = ['[', ']'] from rfl]
      simp only [List.cons_append, List.nil_append]
      rw [parseVal_succ_cons f '[' _ (by decide)]
      simp only [show ('[' = 'n') = False by simp, show ('[' = 't') = False by simp,
        show ('[' = 'f') = False by simp, show ('[' = '"') = False by simp,
        if_false, if_true, eq_self_iff_true]
      rw [parseArrBody_cons f ']' rest (by decide)]
      simp
    | cons x xs =>
      intro fuel rest hf hrest
      have hx : ValOk x := hxs x (by simp)
      have hxs' : ∀ y ∈ xs, ValOk y := fun y hy => hxs y (by simp [hy])
      have hda : json_dumps (JsonVal.arr (x :: xs))
          = '[' :: (json_dumps x ++ dumpsArrTail xs ++ [']']) := by
        rw [json_dumps]
      have hlen : (json_dumps (JsonVal.arr (x :: xs))).length
          = 2 + (json_dumps x).length + (dumpsArrTail xs).length := by
        rw [hda]
        simp [List.length_append]
        omega
      obtain ⟨f, rfl⟩ : ∃ f, fuel = f + 1 := ⟨fuel - 1, by omega⟩
      rw [hda]
      simp only [List.cons_append, List.append_assoc, List.nil_append]
      rw [parseVal_succ_cons f '[' _ (by decide)]
      simp only [show ('[' = 'n') = False by simp, show ('[' = 't') = False by simp,
        show ('[' = 'f') = False by simp, show ('[' = '"') = False by simp,
        if_false, if_true, eq_self_iff_true]
      obtain ⟨c, cs, hcons, hws, hbr, hbc⟩ := json_dumps_head x
      rw [hcons]
      simp only [List.cons_append]
      rw [parseArrBody_cons f c _ hws, if_neg hbr]
      rw [show c :: (cs ++ (dumpsArrTail xs ++ ']' :: rest))
          = json_dumps x ++ (dumpsArrTail xs ++ ']' :: rest) from by rw [hcons]; simp]
      rw [parseArrItems_chunk xs x hx hxs' f rest (by omega) hrest]
      rfl
  | hobj kvs hkvs =>
    cases kvs with
    | nil =>
      intro fuel rest hf hrest
      have h2 : (json_dumps (JsonVal.obj [])).length = 2 := rfl
      obtain ⟨f, rfl⟩ : ∃ f, fuel = f + 1 := ⟨fuel - 1, by omega⟩
      rw [show json_dumps (JsonVal.obj []) = ['{', '}'] from rfl]
      simp only [List.cons_append, List.nil_append]
      rw [parseVal_succ_cons f '{' _ (by decide)]
      simp only [show ('{' = 'n') = False by simp, show ('{' = 't') = False by simp,
        show ('{' = 'f') = False by simp, show ('{' = '"') = False by simp,
        show ('{' = '[') = False by simp, if_false, if_true, eq_self_iff_true]
      rw [parseObjBody_cons f '}' rest (by decide)]
      simp
    | cons kv kvs =>
      intro fuel rest hf hrest
      obtain ⟨k, v⟩ := kv
      have hv : ValOk v := hkvs (k, v) (by simp)
      have hkvs' : ∀ e ∈ kvs, ValOk e.2 := fun e he => hkvs e (by simp [he])
      have hdo : json_dumps (JsonVal.obj ((k, v) :: kvs))
          = '{' :: (dumpsEntry (k, v) ++ dumpsObjTail kvs ++ ['}']) := by
        rw [json_dumps]
      have hlen : (json_dumps (JsonVal.obj ((k, v) :: kvs))).length
          = 2 + (dumpsEntry (k, v)).length + (dumpsObjTail kvs).length := by
        rw [hdo]
        simp [List.length_append]
        omega
      have hde : dumpsEntry (k, v)
          = '"' :: (escapeChars k.data ++ '"' :: ':' :: ' ' :: json_dumps v) := by
        rw [dumpsEntry]
      obtain ⟨f, rfl⟩ : ∃ f, fuel = f + 1 := ⟨fuel - 1, by omega⟩
      rw [hdo]
      simp only [List.cons_append, List.append_assoc, List.nil_append]
      rw [parseVal_succ_cons f '{' _ (by decide)]
      simp only [show ('{' = 'n') = False by simp, show ('{' = 't') = False by simp,
        show ('{' = 'f') = False by simp, show ('{' = '"') = False by simp,
        show ('{' = '[') = False by simp, if_false, if_true, eq_self_iff_true]
      rw [hde]
      simp only [List.cons_append]
      rw [parseObjBody_cons f '"' _ (by decide), if_neg (by decide : ('"' : Char) ≠ '}')]
      rw [show '"' :: (escapeChars k.data ++ '"' :: ':' :: ' ' :: json_dumps v
            ++ (dumpsObjTail kvs ++ '}' :: rest))
          = dumpsEntry (k, v) ++ (dumpsObjTail kvs ++ '}' :: rest) from by
        rw [hde]; simp]
      rw [parseObjItems_chunk kvs k v hv hkvs' f rest (by omega) hrest]
      rfl

theorem json_loads_dumps (v : JsonVal) : json_loads (json_dumps v) = some v := by
  have h := json_dumps_valOk v (2 * (json_dumps v).length + 2) [] (by omega) rfl
  rw [List.append_nil] at h
  unfold json_loads
  rw [h]
  simp [skipWs]

/-! ## Lemmas: the validation loop on object bodies -/

theorem firstMissingField_obj (fields : List String) (kvs : List (String × JsonVal)) :
    firstMissingField fields (.obj kvs)
      = .ok ((fields.filter (fun f => !(hasKey kvs f))).head?) := by
  induction fields with
  | nil => rfl
  | cons f fs ih =>
    cases h : hasKey kvs f with
    | true => simp [firstMissingField, jsonContains, h, List.filter, ih]
    | false => simp [firstMissingField, jsonContains, h, List.filter]

/-! ## Lemmas: branch equations of the predict handler -/

theorem predict_body_err (e : PyErr) (ad : JsonVal → Except PyErr (Int × String × Int))
    (insertOk : Bool) (now : Nat) (db : Db) :
    predict (.error e) ad insertOk now db = PredictResult.mk 500 internalError db [] false := by
  simp [predict]

theorem predict_validation_err (data : JsonVal) (e : PyErr)
    (ad : JsonVal → Except PyErr (Int × String × Int)) (insertOk : Bool) (now : Nat) (db : Db)
    (h : firstMissingField required_fields data = .error e) :
    predict (.ok data) ad insertOk now db = PredictResult.mk 500 internalError db [] false := by
  simp [predict, h]

theorem predict_missing (data : JsonVal) (f : String)
    (ad : JsonVal → Except PyErr (Int × String × Int)) (insertOk : Bool) (now : Nat) (db : Db)
    (h : firstMissingField required_fields data = .ok (some f)) :
    predict (.ok data) ad insertOk now db
      = PredictResult.mk 400 (errorJson ("Missing required field: " ++ f)) db [] false := by
  simp [predict, h]

theorem predict_adapter_err (data : JsonVal) (e : PyErr)
    (ad : JsonVal → Except PyErr (Int × String × Int)) (insertOk : Bool) (now : Nat) (db : Db)
    (hv : firstMissingField required_fields data = .ok none)
    (ha : ad data = .error e) :
    predict (.ok data) ad insertOk now db = PredictResult.mk 500 internalError db [] true := by
  simp [predict, hv, ha]

theorem predict_insert_err (data : JsonVal) (s : Int) (l : String) (c : Int)
    (ad : JsonVal → Except PyErr (Int × String × Int)) (now : Nat) (db : Db)
    (hv : firstMissingField required_fields data = .ok none)
    (ha : ad data = .ok (s, l, c)) :
    predict (.ok data) ad false now db
      = PredictResult.mk 500 internalError db
          [SqlStmt.insertPrediction (json_dumps data) s l c now] true := by
  simp [predict, hv, ha]

theorem predict_success (data : JsonVal) (s : Int) (l : String) (c : Int)
    (ad : JsonVal → Except PyErr (Int × String × Int)) (now : Nat) (db : Db)
    (hv : firstMissingField required_fields data = .ok none)
    (ha : ad data = .ok (s, l, c)) :
    predict (.ok data) ad true now db
      = PredictResult.mk 200 (predictResponse s l c)
          (applySql db (SqlStmt.insertPrediction (json_dumps data) s l c now))
          [SqlStmt.insertPrediction (json_dumps data) s l c now] true := by
  simp [predict, hv, ha]

/-! ## Lemmas: status taxonomy and response shapes of predict -/

theorem predict_status_cases (gj : Except PyErr JsonVal)
    (ad : JsonVal → Except PyErr (Int × String × Int)) (insertOk : Bool) (now : Nat) (db : Db) :
    ((predict gj ad insertOk now db).status = 200 ∨
      (predict gj ad insertOk now db).status = 400 ∨
      (predict gj ad insertOk now db).status = 500) ∧
    ((predict gj ad insertOk now db).status = 500 →
      (predict gj ad insertOk now db).body = internalError) := by
  cases gj with
  | error e =>
    rw [predict_body_err]
    exact ⟨Or.inr (Or.inr rfl), fun _ => rfl⟩
  | ok data =>
    rcases hv : firstMissingField required_fields data with e | om
    · rw [predict_validation_err data e ad insertOk now db hv]
      exact ⟨Or.inr (Or.inr rfl), fun _ => rfl⟩
    · cases om with
      | some f =>
        rw [predict_missing data f ad insertOk now db hv]
        exact ⟨Or.inr (Or.inl rfl), fun h => by simp at h⟩
      | none =>
        rcases ha : ad data with e | t
        · rw [predict_adapter_err data e ad insertOk now db hv ha]
          exact ⟨Or.inr (Or.inr rfl), fun _ => rfl⟩
        · obtain ⟨s, l, c⟩ := t
          cases insertOk with
          | false =>
            rw [predict_insert_err data s l c ad now db hv ha]
            exact ⟨Or.inr (Or.inr rfl), fun _ => rfl⟩
          | true =>
            rw [predict_success data s l c ad now db hv ha]
            exact ⟨Or.inl rfl, fun h => by simp at h⟩

theorem predict_200_body (gj : Except PyErr JsonVal)
    (ad : JsonVal → Except PyErr (Int × String × Int)) (insertOk : Bool) (now : Nat) (db : Db)
    (h : (predict gj ad insertOk now db).status = 200) :
    ∃ s l c, (predict gj ad insertOk now db).body = predictResponse s l c := by
  cases gj with
  | error e =>
    rw [predict_body_err] at h
    simp at h
  | ok data =>
    rcases hv : firstMissingField required_fields data with e | om
    · rw [predict_validation_err data e ad insertOk now db hv] at h
      simp at h
    · cases om with
      | some f =>
        rw [predict_missing data f ad insertOk now db hv] at h
        simp at h
      | none =>
        rcases ha : ad data with e | t
        · rw [predict_adapter_err data e ad insertOk now db hv ha] at h
          simp at h
        · obtain ⟨s, l, c⟩ := t
          cases insertOk with
          | false =>
            rw [predict_insert_err data s l c ad now db hv ha] at h
            simp at h
          | true =>
            exact ⟨s, l, c, by rw [predict_success data s l c ad now db hv ha]⟩

theorem predict_preserves_rows (gj : Except PyErr JsonVal)
    (ad : JsonVal → Except PyErr (Int × String × Int)) (insertOk : Bool) (now : Nat) (db : Db)
    (i : Nat) (r : PredRow) (h : db.rows[i]? = some r) :
    (predict gj ad insertOk now db).db.rows[i]? = some r := by
  have hi : i < db.rows.length := (List.getElem?_eq_some.mp h).1
  cases gj with
  | error e => rw [predict_body_err]; exact h
  | ok data =>
    rcases hv : firstMissingField required_fields data with e | om
    · rw [predict_validation_err data e ad insertOk now db hv]; exact h
    · cases om with
      | some f => rw [predict_missing data f ad insertOk now db hv]; exact h
      | none =>
        rcases ha : ad data with e | t
        · rw [predict_adapter_err data e ad insertOk now db hv ha]; exact h
        · obtain ⟨s, l, c⟩ := t
          cases insertOk with
          | false => rw [predict_insert_err data s l c ad now db hv ha]; exact h
          | true =>
            rw [predict_success data s l c ad now db hv ha]
            show (db.rows ++ [PredRow.mk db.nextId (json_dumps data) s l c now])[i]? = some r
            rw [List.getElem?_append_left hi]
            exact h

theorem predict_sql_shape (gj : Except PyErr JsonVal)
    (ad : JsonVal → Except PyErr (Int × String × Int)) (insertOk : Bool) (now : Nat) (db : Db) :
    (predict gj ad insertOk now db).sql = [] ∨
    ∃ pd rs rl cf, (predict gj ad insertOk now db).sql
      = [SqlStmt.insertPrediction pd rs rl cf now] := by
  cases gj with
  | error e => rw [predict_body_err]; exact Or.inl rfl
  | ok data =>
    rcases hv : firstMissingField required_fields data with e | om
    · rw [predict_validation_err data e ad insertOk now db hv]; exact Or.inl rfl
    · cases om with
      | some f => rw [predict_missing data f ad insertOk now db hv]; exact Or.inl rfl
      | none =>
        rcases ha : ad data with e | t
        · rw [predict_adapter_err data e ad insertOk now db hv ha]; exact Or.inl rfl
        · obtain ⟨s, l, c⟩ := t
          cases insertOk with
          | false =>
            rw [predict_insert_err data s l c ad now db hv ha]
            exact Or.inr ⟨json_dumps data, s, l, c, rfl⟩
          | true =>
            rw [predict_success data s l c ad now db hv ha]
            exact Or.inr ⟨json_dumps data, s, l, c, rfl⟩

/-! ## Lemmas: the list handler -/

theorem mapRows_length (rs : List PredRow) (js : List JsonVal) (h : mapRows rs = .ok js) :
    js.length = rs.length := by
  induction rs generalizing js with
  | nil =>
    simp [mapRows] at h
    subst h
    rfl
  | cons r rs ih =>
    rcases hr : rowToJson r with e | j
    · simp [mapRows, hr] at h
    · rcases hm : mapRows rs with e | js'
      · simp [mapRows, hr, hm] at h
      · simp [mapRows, hr, hm] at h
        subst h
        simp [ih js' hm]

theorem selectRecent_sorted (db : Db) :
    (selectRecent db).Pairwise (fun a b => b.created_at ≤ a.created_at) := by
  unfold selectRecent
  apply List.Pairwise.sublist (List.take_sublist _ _)
  have h := @List.sorted_mergeSort PredRow
    (fun a b : PredRow => decide (b.created_at ≤ a.created_at))
    (fun a b c hab hbc => by
      simp only [decide_eq_true_eq] at *
      exact le_trans hbc hab)
    (fun a b => by
      simp only [Bool.or_eq_true, decide_eq_true_eq]
      exact le_total b.created_at a.created_at)
    db.rows
  exact h.imp (fun hab => by simpa using hab)

theorem get_patients_db (connOk : Bool) (db : Db) : (get_patients connOk db).db = db := by
  cases connOk with
  | false => rfl
  | true =>
    rcases hm : mapRows (selectRecent db) with e | js <;>
      simp [get_patients, hm, applySql]

theorem get_patients_sql_shape (connOk : Bool) (db : Db) :
    (get_patients connOk db).sql = [] ∨ (get_patients connOk db).sql = [.selectRecent 100] := by
  cases connOk with
  | false => exact Or.inl rfl
  | true =>
    rcases hm : mapRows (selectRecent db) with e | js <;>
      simp [get_patients, hm]

theorem train_model_db (tr : Except PyErr JsonVal) (db : Db) : (train_model tr db).db = db := by
  cases tr <;> rfl

theorem train_model_sql (tr : Except PyErr JsonVal) (db : Db) : (train_model tr db).sql = [] := by
  cases tr <;> rfl

/-! ## Lemmas: reading the predict response -/

theorem responseField_riskLevel (s : Int) (l : String) (c : Int) :
    responseField (predictResponse s l c) "riskLevel" = some (.str l) := rfl

theorem responseField_recommendations (s : Int) (l : String) (c : Int) :
    responseField (predictResponse s l c) "recommendations"
      = some (.arr ((get_recommendations l).map JsonVal.str)) := rfl

theorem get_recommendations_other (l : String)
    (h1 : l ≠ "Low") (h2 : l ≠ "Medium") (h3 : l ≠ "High") :
    get_recommendations l = [] := by
  have hfind : recommendationTable.find? (fun kv => kv.1 == l) = none := by
    rw [List.find?_eq_none]
    intro kv hkv
    simp only [recommendationTable, List.mem_cons, List.not_mem_nil, or_false] at hkv
    rcases hkv with h | h | h <;> subst h <;>
      simp [beq_iff_eq] <;> intro he <;> [exact h1 he.symm; exact h2 he.symm; exact h3 he.symm]
  simp [get_recommendations, hfind]

/-! ## Claim theorems -/

/-- C1: for every predict request whose JSON object body lacks at least one of
the six required keys, the predict operation returns HTTP 400 with an error
message naming a missing field, whatever the values of the keys that are
present, the adapter, the insert outcome, the clock and the table state. -/
theorem C1_missing_key_400 (kvs : List (String × JsonVal))
    (ad : JsonVal → Except PyErr (Int × String × Int)) (insertOk : Bool) (now : Nat) (db : Db)
    (hmiss : ∃ f ∈ required_fields, hasKey kvs f = false) :
    (predict (.ok (.obj kvs)) ad insertOk now db).status = 400 ∧
    ∃ f, f ∈ required_fields ∧ hasKey kvs f = false ∧
      (predict (.ok (.obj kvs)) ad insertOk now db).body
        = errorJson ("Missing required field: " ++ f) := by
  cases hl : required_fields.filter (fun g => !(hasKey kvs g)) with
  | nil =>
    exfalso
    obtain ⟨f, hfm, hfk⟩ := hmiss
    have hmem : f ∈ required_fields.filter (fun g => !(hasKey kvs g)) :=
      List.mem_filter.mpr ⟨hfm, by simp [hfk]⟩
    rw [hl] at hmem
    simp at hmem
  | cons f0 t =>
    have h : firstMissingField required_fields (.obj kvs) = .ok (some f0) := by
      rw [firstMissingField_obj, hl, List.head?_cons]
    have hmem0 : f0 ∈ required_fields.filter (fun g => !(hasKey kvs g)) := by
      rw [hl]
      exact List.mem_cons_self _ _
    obtain ⟨hf0m, hf0k⟩ := List.mem_filter.mp hmem0
    rw [predict_missing _ _ _ _ _ _ h]
    exact ⟨rfl, f0, hf0m, by simpa using hf0k, rfl⟩

/-- C1 witness: a body carrying only `age` is rejected with a 400 naming a
missing field. -/
theorem C1_missing_key_400_witness :
    (predict (.ok (.obj [("age", JsonVal.num 45)]))
        (fun _ => .ok (1, "Low", 1)) true 0 (Db.mk [] 1)).status = 400 ∧
    ∃ f, f ∈ required_fields ∧ hasKey [("age", JsonVal.num 45)] f = false ∧
      (predict (.ok (.obj [("age", JsonVal.num 45)]))
          (fun _ => .ok (1, "Low", 1)) true 0 (Db.mk [] 1)).body
        = errorJson ("Missing required field: " ++ f) :=
  C1_missing_key_400 [("age", JsonVal.num 45)] (fun _ => .ok (1, "Low", 1)) true 0 (Db.mk [] 1)
    ⟨"gender", by simp [required_fields], by decide⟩

/-- C2: for every predict request whose JSON object body has all six required
keys, if the adapter returns `(s, l, c)` and the insert succeeds, the response
is a 200 whose recommendations are exactly the fixed hardcoded list for the
returned risk level: the 3-item list for Low, the 4-item lists for Medium and
High, and the empty list for any other level. -/
theorem C2_success_recommendations (kvs : List (String × JsonVal))
    (ad : JsonVal → Except PyErr (Int × String × Int)) (s : Int) (l : String) (c : Int)
    (now : Nat) (db : Db)
    (hall : ∀ f ∈ required_fields, hasKey kvs f = true)
    (ha : ad (.obj kvs) = .ok (s, l, c)) :
    (predict (.ok (.obj kvs)) ad true now db).status = 200 ∧
    (predict (.ok (.obj kvs)) ad true now db).body = predictResponse s l c ∧
    responseField (predict (.ok (.obj kvs)) ad true now db).body "recommendations"
      = some (.arr ((get_recommendations l).map JsonVal.str)) ∧
    (l = "Low" → get_recommendations l
      = ["Continue regular health checkups", "Maintain healthy lifestyle",
         "Annual screening recommended"]) ∧
    (l = "Medium" → get_recommendations l
      = ["Schedule consultation with oncologist", "Consider additional screening tests",
         "Monitor symptoms closely", "Lifestyle modifications recommended"]) ∧
    (l = "High" → get_recommendations l
      = ["Immediate consultation with oncologist required",
         "Comprehensive diagnostic workup needed", "Consider genetic counseling",
         "Frequent monitoring essential"]) ∧
    (l = "Low" → (get_recommendations l).length = 3) ∧
    (l = "Medium" → (get_recommendations l).length = 4) ∧
    (l = "High" → (get_recommendations l).length = 4) ∧
    (l ≠ "Low" → l ≠ "Medium" → l ≠ "High" → get_recommendations l = []) := by
  have hfilter : required_fields.filter (fun g => !(hasKey kvs g)) = [] :=
    List.filter_eq_nil_iff.mpr (fun f hf => by simp [hall f hf])
  have hv : firstMissingField required_fields (.obj kvs) = .ok none := by
    rw [firstMissingField_obj, hfilter]
    rfl
  rw [predict_success _ s l c ad now db hv ha]
  refine ⟨rfl, rfl, responseField_recommendations s l c, ?_, ?_, ?_, ?_, ?_, ?_, ?_⟩
  · intro h; subst h; rfl
  · intro h; subst h; rfl
  · intro h; subst h; rfl
  · intro h; subst h; rfl
  · intro h; subst h; rfl
  · intro h; subst h; rfl
  · exact get_recommendations_other l

/-- C2 witness: the six-key scenario body yields a 200 whose recommendations
are the Medium list. -/
theorem C2_success_recommendations_witness :
    (predict (.ok (.obj [("age", JsonVal.num 45), ("gender", JsonVal.str "F"),
        ("smoking", JsonVal.bool false), ("drinking", JsonVal.bool false),
        ("familyHistory", JsonVal.bool true), ("exerciseFrequency", JsonVal.str "low")]))
        (fun _ => .ok (62, "Medium", 87)) true 7 (Db.mk [] 1)).status = 200 ∧
    (predict (.ok (.obj [("age", JsonVal.num 45), ("gender", JsonVal.str "F"),
        ("smoking", JsonVal.bool false), ("drinking", JsonVal.bool false),
        ("familyHistory", JsonVal.bool true), ("exerciseFrequency", JsonVal.str "low")]))
        (fun _ => .ok (62, "Medium", 87)) true 7 (Db.mk [] 1)).body
      = predictResponse 62 "Medium" 87 ∧
    responseField (predict (.ok (.obj [("age", JsonVal.num 45), ("gender", JsonVal.str "F"),
        ("smoking", JsonVal.bool false), ("drinking", JsonVal.bool false),
        ("familyHistory", JsonVal.bool true), ("exerciseFrequency", JsonVal.str "low")]))
        (fun _ => .ok (62, "Medium", 87)) true 7 (Db.mk [] 1)).body "recommendations"
      = some (.arr ((get_recommendations "Medium").map JsonVal.str)) ∧
    ("Medium" = "Low" → get_recommendations "Medium"
      = ["Continue regular health checkups", "Maintain healthy lifestyle",
         "Annual screening recommended"]) ∧
    ("Medium" = "Medium" → get_recommendations "Medium"
      = ["Schedule consultation with oncologist", "Consider additional screening tests",
         "Monitor symptoms closely", "Lifestyle modifications recommended"]) ∧
    ("Medium" = "High" → get_recommendations "Medium"
      = ["Immediate consultation with oncologist required",
         "Comprehensive diagnostic workup needed", "Consider genetic counseling",
         "Frequent monitoring essential"]) ∧
    ("Medium" = "Low" → (get_recommendations "Medium").length = 3) ∧
    ("Medium" = "Medium" → (get_recommendations "Medium").length = 4) ∧
    ("Medium" = "High" → (get_recommendations "Medium").length = 4) ∧
    ("Medium" ≠ "Low" → "Medium" ≠ "Medium" → "Medium" ≠ "High" →
      get_recommendations "Medium" = []) :=
  C2_success_recommendations
    [("age", JsonVal.num 45), ("gender", JsonVal.str "F"),
     ("smoking", JsonVal.bool false), ("drinking", JsonVal.bool false),
     ("familyHistory", JsonVal.bool true), ("exerciseFrequency", JsonVal.str "low")]
    (fun _ => .ok (62, "Medium", 87)) 62 "Medium" 87 7 (Db.mk [] 1)
    (by decide) rfl

/-- C3: the list operation returns at most 100 records, the records are
ordered by `created_at` descending, and a 200 response carries exactly one
JSON object per selected row. -/
theorem C3_list_cap_sorted (db : Db) (connOk : Bool) :
    (selectRecent db).length ≤ 100 ∧
    (selectRecent db).Pairwise (fun a b => b.created_at ≤ a.created_at) ∧
    (∀ js, (get_patients connOk db).body = JsonVal.arr js →
      js.length = (selectRecent db).length ∧ js.length ≤ 100) := by
  refine ⟨List.length_take_le _ _, selectRecent_sorted db, ?_⟩
  intro js hjs
  cases connOk with
  | false =>
    simp [get_patients, internalError, errorJson] at hjs
  | true =>
    rcases hm : mapRows (selectRecent db) with e | js'
    · simp [get_patients, hm, internalError, errorJson] at hjs
    · simp [get_patients, hm] at hjs
      subst hjs
      have hlen := mapRows_length _ _ hm
      exact ⟨hlen, hlen ▸ List.length_take_le _ _⟩

/-- C3 witness: on a concrete table state the cap and ordering hold, and the
200 body has one entry per row. -/
theorem C3_list_cap_sorted_witness :
    (selectRecent (Db.mk [] 0)).length ≤ 100 ∧
    (selectRecent (Db.mk [] 0)).Pairwise (fun a b => b.created_at ≤ a.created_at) ∧
    (∀ js, (get_patients true (Db.mk [] 0)).body = JsonVal.arr js →
      js.length = (selectRecent (Db.mk [] 0)).length ∧ js.length ≤ 100) :=
  C3_list_cap_sorted (Db.mk [] 0) true

/-- C4: a successful predict call appends exactly one row whose
`patient_data` column is the JSON serialization of the submitted input;
deserializing it with the list operation's parser recovers an object equal to
the original input, and the per-row shaping of `get_patients` returns that
object unchanged. -/
theorem C4_roundtrip (data : JsonVal)
    (ad : JsonVal → Except PyErr (Int × String × Int)) (s : Int) (l : String) (c : Int)
    (now : Nat) (db : Db)
    (hv : firstMissingField required_fields data = .ok none)
    (ha : ad data = .ok (s, l, c)) :
    (predict (.ok data) ad true now db).db.rows
      = db.rows ++ [PredRow.mk db.nextId (json_dumps data) s l c now] ∧
    json_loads (json_dumps data) = some data ∧
    rowToJson (PredRow.mk db.nextId (json_dumps data) s l c now)
      = .ok (.obj [("id", .num (Int.ofNat db.nextId)), ("patient_data", data),
                   ("risk_score", .num s), ("risk_level", .str l), ("confidence", .num c),
                   ("created_at", .str (isoformat now))]) := by
  refine ⟨?_, json_loads_dumps data, ?_⟩
  · rw [predict_success data s l c ad now db hv ha]
    rfl
  · simp [rowToJson, json_loads_dumps data]

/-- C4 witness: the scenario body round-trips through the stored row. -/
theorem C4_roundtrip_witness :
    (predict (.ok (.obj [("age", JsonVal.num 45), ("gender", JsonVal.str "F"),
        ("smoking", JsonVal.bool false), ("drinking", JsonVal.bool false),
        ("familyHistory", JsonVal.bool true), ("exerciseFrequency", JsonVal.str "low")]))
        (fun _ => .ok (62, "Medium", 87)) true 7 (Db.mk [] 1)).db.rows
      = [] ++ [PredRow.mk 1 (json_dumps (.obj [("age", JsonVal.num 45),
          ("gender", JsonVal.str "F"), ("smoking", JsonVal.bool false),
          ("drinking", JsonVal.bool false), ("familyHistory", JsonVal.bool true),
          ("exerciseFrequency", JsonVal.str "low")])) 62 "Medium" 87 7] ∧
    json_loads (json_dumps (.obj [("age", JsonVal.num 45), ("gender", JsonVal.str "F"),
        ("smoking", JsonVal.bool false), ("drinking", JsonVal.bool false),
        ("familyHistory", JsonVal.bool true), ("exerciseFrequency", JsonVal.str "low")]))
      = some (.obj [("age", JsonVal.num 45), ("gender", JsonVal.str "F"),
        ("smoking", JsonVal.bool false), ("drinking", JsonVal.bool false),
        ("familyHistory", JsonVal.bool true), ("exerciseFrequency", JsonVal.str "low")]) ∧
    rowToJson (PredRow.mk 1 (json_dumps (.obj [("age", JsonVal.num 45),
        ("gender", JsonVal.str "F"), ("smoking", JsonVal.bool false),
        ("drinking", JsonVal.bool false), ("familyHistory", JsonVal.bool true),
        ("exerciseFrequency", JsonVal.str "low")])) 62 "Medium" 87 7)
      = .ok (.obj [("id", .num (Int.ofNat 1)),
          ("patient_data", .obj [("age", JsonVal.num 45), ("gender", JsonVal.str "F"),
            ("smoking", JsonVal.bool false), ("drinking", JsonVal.bool false),
            ("familyHistory", JsonVal.bool true), ("exerciseFrequency", JsonVal.str "low")]),
          ("risk_score", .num 62), ("risk_level", .str "Medium"), ("confidence", .num 87),
          ("created_at", .str (isoformat 7))]) :=
  C4_roundtrip (.obj [("age", JsonVal.num 45), ("gender", JsonVal.str "F"),
      ("smoking", JsonVal.bool false), ("drinking", JsonVal.bool false),
      ("familyHistory", JsonVal.bool true), ("exerciseFrequency", JsonVal.str "low")])
    (fun _ => .ok (62, "Medium", 87)) 62 "Medium" 87 7 (Db.mk [] 1)
    rfl rfl

/-- C5: the predict handler is total with status in 200/400/500; every 500
carries the fixed generic body, and each failure mode (malformed body,
adapter failure, insert failure) is caught and surfaced as that generic
500, never as an uncaught exception or a detailed message. -/
theorem C5_exceptions_caught (gj : Except PyErr JsonVal)
    (ad : JsonVal → Except PyErr (Int × String × Int)) (insertOk : Bool) (now : Nat) (db : Db) :
    ((predict gj ad insertOk now db).status = 200 ∨
      (predict gj ad insertOk now db).status = 400 ∨
      (predict gj ad insertOk now db).status = 500) ∧
    ((predict gj ad insertOk now db).status = 500 →
      (predict gj ad insertOk now db).body = internalError) ∧
    (∀ e, gj = .error e →
      predict gj ad insertOk now db = PredictResult.mk 500 internalError db [] false) ∧
    (∀ data e, gj = .ok data → firstMissingField required_fields data = .ok none →
      ad data = .error e →
      predict gj ad insertOk now db = PredictResult.mk 500 internalError db [] true) ∧
    (∀ data s l c, gj = .ok data → firstMissingField required_fields data = .ok none →
      ad data = .ok (s, l, c) → insertOk = false →
      (predict gj ad insertOk now db).status = 500 ∧
      (predict gj ad insertOk now db).body = internalError ∧
      (predict gj ad insertOk now db).db = db) := by
  obtain ⟨h1, h2⟩ := predict_status_cases gj ad insertOk now db
  refine ⟨h1, h2, ?_, ?_, ?_⟩
  · intro e he
    subst he
    exact predict_body_err e ad insertOk now db
  · intro data e hgj hv ha
    subst hgj
    exact predict_adapter_err data e ad insertOk now db hv ha
  · intro data s l c hgj hv ha hok
    subst hgj
    subst hok
    rw [predict_insert_err data s l c ad now db hv ha]
    exact ⟨rfl, rfl, rfl⟩

/-- C5 witness: a malformed body produces the generic 500. -/
theorem C5_exceptions_caught_witness :
    ((predict (.error "bad request") (fun _ => .ok (1, "Low", 1)) true 0 (Db.mk [] 1)).status
        = 200 ∨
      (predict (.error "bad request") (fun _ => .ok (1, "Low", 1)) true 0 (Db.mk [] 1)).status
        = 400 ∨
      (predict (.error "bad request") (fun _ => .ok (1, "Low", 1)) true 0 (Db.mk [] 1)).status
        = 500) ∧
    ((predict (.error "bad request") (fun _ => .ok (1, "Low", 1)) true 0 (Db.mk [] 1)).status
        = 500 →
      (predict (.error "bad request") (fun _ => .ok (1, "Low", 1)) true 0 (Db.mk [] 1)).body
        = internalError) ∧
    (∀ e, (Except.error "bad request" : Except PyErr JsonVal) = .error e →
      predict (.error "bad request") (fun _ => .ok (1, "Low", 1)) true 0 (Db.mk [] 1)
        = PredictResult.mk 500 internalError (Db.mk [] 1) [] false) ∧
    (∀ data e, (Except.error "bad request" : Except PyErr JsonVal) = .ok data →
      firstMissingField required_fields data = .ok none →
      (fun (_ : JsonVal) => (Except.ok (1, "Low", 1) : Except PyErr (Int × String × Int))) data
        = .error e →
      predict (.error "bad request") (fun _ => .ok (1, "Low", 1)) true 0 (Db.mk [] 1)
        = PredictResult.mk 500 internalError (Db.mk [] 1) [] true) ∧
    (∀ data s l c, (Except.error "bad request" : Except PyErr JsonVal) = .ok data →
      firstMissingField required_fields data = .ok none →
      (fun (_ : JsonVal) => (Except.ok (1, "Low", 1) : Except PyErr (Int × String × Int))) data
        = .ok (s, l, c) → true = false →
      (predict (.error "bad request") (fun _ => .ok (1, "Low", 1)) true 0 (Db.mk [] 1)).status
          = 500 ∧
      (predict (.error "bad request") (fun _ => .ok (1, "Low", 1)) true 0 (Db.mk [] 1)).body
          = internalError ∧
      (predict (.error "bad request") (fun _ => .ok (1, "Low", 1)) true 0 (Db.mk [] 1)).db
          = Db.mk [] 1) :=
  C5_exceptions_caught (.error "bad request") (fun _ => .ok (1, "Low", 1)) true 0 (Db.mk [] 1)

/-- C6: a predict request that fails validation returns the 400 before the
adapter is invoked and before any SQL is issued: the adapter-called flag is
false, the statement list is empty and the table state is unchanged. -/
theorem C6_validation_short_circuit (kvs : List (String × JsonVal))
    (ad : JsonVal → Except PyErr (Int × String × Int)) (insertOk : Bool) (now : Nat) (db : Db)
    (hmiss : ∃ f ∈ required_fields, hasKey kvs f = false) :
    (predict (.ok (.obj kvs)) ad insertOk now db).status = 400 ∧
    (predict (.ok (.obj kvs)) ad insertOk now db).db = db ∧
    (predict (.ok (.obj kvs)) ad insertOk now db).sql = [] ∧
    (predict (.ok (.obj kvs)) ad insertOk now db).adapterCalled = false := by
  cases hl : required_fields.filter (fun g => !(hasKey kvs g)) with
  | nil =>
    exfalso
    obtain ⟨f, hfm, hfk⟩ := hmiss
    have hmem : f ∈ required_fields.filter (fun g => !(hasKey kvs g)) :=
      List.mem_filter.mpr ⟨hfm, by simp [hfk]⟩
    rw [hl] at hmem
    simp at hmem
  | cons f0 t =>
    have h : firstMissingField required_fields (.obj kvs) = .ok (some f0) := by
      rw [firstMissingField_obj, hl, List.head?_cons]
    rw [predict_missing _ _ _ _ _ _ h]
    exact ⟨rfl, rfl, rfl, rfl⟩

/-- C6 witness: the one-key body is rejected with no adapter call, no SQL and
an unchanged table. -/
theorem C6_validation_short_circuit_witness :
    (predict (.ok (.obj [("age", JsonVal.num 45)]))
        (fun _ => .ok (1, "Low", 1)) true 0 (Db.mk [] 1)).status = 400 ∧
    (predict (.ok (.obj [("age", JsonVal.num 45)]))
        (fun _ => .ok (1, "Low", 1)) true 0 (Db.mk [] 1)).db = Db.mk [] 1 ∧
    (predict (.ok (.obj [("age", JsonVal.num 45)]))
        (fun _ => .ok (1, "Low", 1)) true 0 (Db.mk [] 1)).sql = [] ∧
    (predict (.ok (.obj [("age", JsonVal.num 45)]))
        (fun _ => .ok (1, "Low", 1)) true 0 (Db.mk [] 1)).adapterCalled = false :=
  C6_validation_short_circuit [("age", JsonVal.num 45)] (fun _ => .ok (1, "Low", 1)) true 0
    (Db.mk [] 1) ⟨"gender", by simp [required_fields], by decide⟩

/-- C7: the recommendation lookup is a pure function of the risk level: any
two successful predict runs, from any two table states, clocks, adapters and
call orders, whose responses carry the same riskLevel also carry the
identical ordered recommendations list. -/
theorem C7_recommendations_pure (gj₁ gj₂ : Except PyErr JsonVal)
    (ad₁ ad₂ : JsonVal → Except PyErr (Int × String × Int)) (ok₁ ok₂ : Bool)
    (now₁ now₂ : Nat) (db₁ db₂ : Db)
    (h₁ : (predict gj₁ ad₁ ok₁ now₁ db₁).status = 200)
    (h₂ : (predict gj₂ ad₂ ok₂ now₂ db₂).status = 200)
    (hlvl : responseField (predict gj₁ ad₁ ok₁ now₁ db₁).body "riskLevel"
          = responseField (predict gj₂ ad₂ ok₂ now₂ db₂).body "riskLevel") :
    responseField (predict gj₁ ad₁ ok₁ now₁ db₁).body "recommendations"
      = responseField (predict gj₂ ad₂ ok₂ now₂ db₂).body "recommendations" := by
  obtain ⟨s₁, l₁, c₁, hb₁⟩ := predict_200_body gj₁ ad₁ ok₁ now₁ db₁ h₁
  obtain ⟨s₂, l₂, c₂, hb₂⟩ := predict_200_body gj₂ ad₂ ok₂ now₂ db₂ h₂
  rw [hb₁, hb₂] at hlvl ⊢
  rw [responseField_riskLevel, responseField_riskLevel] at hlvl
  have hl : l₁ = l₂ := by
    have := Option.some.inj hlvl
    exact JsonVal.str.inj this
  subst hl
  rw [responseField_recommendations, responseField_recommendations]

/-- C7 witness: two different runs (different bodies, scores, clocks and
table states) with the same Low risk level return the same list. -/
theorem C7_recommendations_pure_witness :
    responseField (predict (.ok (.obj [("age", JsonVal.num 45), ("gender", JsonVal.str "F"),
        ("smoking", JsonVal.bool false), ("drinking", JsonVal.bool false),
        ("familyHistory", JsonVal.bool true), ("exerciseFrequency", JsonVal.str "low")]))
        (fun _ => .ok (10, "Low", 5)) true 0 (Db.mk [] 1)).body "recommendations"
      = responseField (predict (.ok (.obj [("age", JsonVal.num 1), ("gender", JsonVal.num 2),
          ("smoking", JsonVal.num 3), ("drinking", JsonVal.num 4),
          ("familyHistory", JsonVal.num 5), ("exerciseFrequency", JsonVal.num 6),
          ("extra", JsonVal.null)]))
          (fun _ => .ok (99, "Low", 1)) true 42
          (Db.mk [PredRow.mk 0 ['x'] 1 "High" 2 3] 9)).body "recommendations" :=
  C7_recommendations_pure
    (.ok (.obj [("age", JsonVal.num 45), ("gender", JsonVal.str "F"),
      ("smoking", JsonVal.bool false), ("drinking", JsonVal.bool false),
      ("familyHistory", JsonVal.bool true), ("exerciseFrequency", JsonVal.str "low")]))
    (.ok (.obj [("age", JsonVal.num 1), ("gender", JsonVal.num 2),
      ("smoking", JsonVal.num 3), ("drinking", JsonVal.num 4),
      ("familyHistory", JsonVal.num 5), ("exerciseFrequency", JsonVal.num 6),
      ("extra", JsonVal.null)]))
    (fun _ => .ok (10, "Low", 5)) (fun _ => .ok (99, "Low", 1)) true true 0 42
    (Db.mk [] 1) (Db.mk [PredRow.mk 0 ['x'] 1 "High" 2 3] 9)
    rfl rfl rfl

/-- C8: no operation of the service updates or deletes an existing row: every
row present before a predict call is still present, unchanged, at its
position afterwards; the list and retrain operations leave the table
untouched; and every SQL statement any handler issues is a single-row INSERT
or a SELECT. -/
theorem C8_records_immutable (gj : Except PyErr JsonVal)
    (ad : JsonVal → Except PyErr (Int × String × Int)) (insertOk : Bool) (now : Nat) (db : Db)
    (connOk : Bool) (tr : Except PyErr JsonVal) :
    (∀ (i : Nat) (r : PredRow), db.rows[i]? = some r →
      (predict gj ad insertOk now db).db.rows[i]? = some r) ∧
    (get_patients connOk db).db = db ∧
    (train_model tr db).db = db ∧
    (∀ st ∈ (predict gj ad insertOk now db).sql
        ++ ((get_patients connOk db).sql ++ (train_model tr db).sql),
      (∃ pd rs rl cf ts, st = SqlStmt.insertPrediction pd rs rl cf ts) ∨
      ∃ n, st = SqlStmt.selectRecent n) := by
  refine ⟨fun i r h => predict_preserves_rows gj ad insertOk now db i r h,
    get_patients_db connOk db, train_model_db tr db, ?_⟩
  intro st hst
  rw [List.mem_append, List.mem_append] at hst
  rcases hst with h | h | h
  · rcases predict_sql_shape gj ad insertOk now db with hs | ⟨pd, rs, rl, cf, hs⟩
    · rw [hs] at h
      simp at h
    · rw [hs] at h
      simp at h
      subst h
      exact Or.inl ⟨pd, rs, rl, cf, now, rfl⟩
  · rcases get_patients_sql_shape connOk db with hs | hs
    · rw [hs] at h
      simp at h
    · rw [hs] at h
      simp at h
      subst h
      exact Or.inr ⟨100, rfl⟩
  · rw [train_model_sql] at h
    simp at h

/-- C8 witness: with a pre-existing row, a successful predict keeps it at
index 0, the other handlers leave the table unchanged, and the issued INSERT
is one of the two allowed statement forms. -/
theorem C8_records_immutable_witness :
    (predict (.ok (.obj [("age", JsonVal.num 1), ("gender", JsonVal.num 2),
        ("smoking", JsonVal.num 3), ("drinking", JsonVal.num 4),
        ("familyHistory", JsonVal.num 5), ("exerciseFrequency", JsonVal.num 6)]))
        (fun _ => .ok (1, "Low", 2)) true 3
        (Db.mk [PredRow.mk 0 ['x'] 1 "Low" 2 3] 7)).db.rows[0]?
      = some (PredRow.mk 0 ['x'] 1 "Low" 2 3) ∧
    (get_patients true (Db.mk [PredRow.mk 0 ['x'] 1 "Low" 2 3] 7)).db
      = Db.mk [PredRow.mk 0 ['x'] 1 "Low" 2 3] 7 ∧
    (train_model (.ok .null) (Db.mk [PredRow.mk 0 ['x'] 1 "Low" 2 3] 7)).db
      = Db.mk [PredRow.mk 0 ['x'] 1 "Low" 2 3] 7 ∧
    ((∃ pd rs rl cf ts, SqlStmt.insertPrediction (json_dumps (.obj [("age", JsonVal.num 1),
          ("gender", JsonVal.num 2), ("smoking", JsonVal.num 3), ("drinking", JsonVal.num 4),
          ("familyHistory", JsonVal.num 5), ("exerciseFrequency", JsonVal.num 6)])) 1 "Low" 2 3
        = SqlStmt.insertPrediction pd rs rl cf ts) ∨
      ∃ n, SqlStmt.insertPrediction (json_dumps (.obj [("age", JsonVal.num 1),
          ("gender", JsonVal.num 2), ("smoking", JsonVal.num 3), ("drinking", JsonVal.num 4),
          ("familyHistory", JsonVal.num 5), ("exerciseFrequency", JsonVal.num 6)])) 1 "Low" 2 3
        = SqlStmt.selectRecent n) := by
  have h := C8_records_immutable
    (.ok (.obj [("age", JsonVal.num 1), ("gender", JsonVal.num 2),
      ("smoking", JsonVal.num 3), ("drinking", JsonVal.num 4),
      ("familyHistory", JsonVal.num 5), ("exerciseFrequency", JsonVal.num 6)]))
    (fun _ => .ok (1, "Low", 2)) true 3 (Db.mk [PredRow.mk 0 ['x'] 1 "Low" 2 3] 7)
    true (.ok .null)
  exact ⟨h.1 0 (PredRow.mk 0 ['x'] 1 "Low" 2 3) rfl, h.2.1, h.2.2.1,
    h.2.2.2 _ (by
      rw [predict_success (.obj [("age", JsonVal.num 1), ("gender", JsonVal.num 2),
        ("smoking", JsonVal.num 3), ("drinking", JsonVal.num 4),
        ("familyHistory", JsonVal.num 5), ("exerciseFrequency", JsonVal.num 6)])
        1 "Low" 2 (fun _ => .ok (1, "Low", 2)) 3
        (Db.mk [PredRow.mk 0 ['x'] 1 "Low" 2 3] 7) rfl rfl]
      simp)⟩

/-- C9: when two or more required keys are missing, the field named in the
400 message is the first missing key in the fixed check order age, gender,
smoking, drinking, familyHistory, exerciseFrequency: the head of the filter
of `required_fields` by absence. -/
theorem C9_first_missing_named (kvs : List (String × JsonVal))
    (ad : JsonVal → Except PyErr (Int × String × Int)) (insertOk : Bool) (now : Nat) (db : Db)
    (f : String) (t2 : List String)
    (hfilter : required_fields.filter (fun g => !(hasKey kvs g)) = f :: t2)
    (_h2 : 1 ≤ t2.length) :
    (predict (.ok (.obj kvs)) ad insertOk now db).status = 400 ∧
    (predict (.ok (.obj kvs)) ad insertOk now db).body
      = errorJson ("Missing required field: " ++ f) := by
  have h : firstMissingField required_fields (.obj kvs) = .ok (some f) := by
    rw [firstMissingField_obj, hfilter, List.head?_cons]
  rw [predict_missing _ _ _ _ _ _ h]
  exact ⟨rfl, rfl⟩

/-- C9 witness: with only `age` present all five other keys are missing and
the message names `gender`, the first of them in check order. -/
theorem C9_first_missing_named_witness :
    (predict (.ok (.obj [("age", JsonVal.num 45)]))
        (fun _ => .ok (1, "Low", 1)) true 0 (Db.mk [] 1)).status = 400 ∧
    (predict (.ok (.obj [("age", JsonVal.num 45)]))
        (fun _ => .ok (1, "Low", 1)) true 0 (Db.mk [] 1)).body
      = errorJson ("Missing required field: " ++ "gender") :=
  C9_first_missing_named [("age", JsonVal.num 45)] (fun _ => .ok (1, "Low", 1)) true 0
    (Db.mk [] 1) "gender" ["smoking", "drinking", "familyHistory", "exerciseFrequency"]
    (by decide) (by decide)

/-- C10: a predict request whose body is the JSON literal `null` yields the
generic 500, not a 400: the `in` test raises a `TypeError` on the
non-container value, which the handler's `except` block turns into the
generic message, with no adapter call and no SQL. -/
theorem C10_null_body_500 (ad : JsonVal → Except PyErr (Int × String × Int))
    (insertOk : Bool) (now : Nat) (db : Db) :
    predict (.ok JsonVal.null) ad insertOk now db
      = PredictResult.mk 500 internalError db [] false := by
  rfl

end MedPredict
